/-
  Verification of the Neon Motion Drum motion-detection and synth-drum engines.

  Shallow embedding of the two core modules:
  * `MotionDetector` (motion engine appended to script.js): frame downsampling,
    3×3 grid brightness differencing, threshold/cooldown gate;
  * `SynthDrums` (audio.js): voice dispatch and lifecycle guards.

  JS numbers are modelled as exact rationals (ℚ) and timestamps as integers (ℤ).
-/
import Mathlib

/-- A downsampled frame: pixel coordinates (x, y) to the three colour channels
(R, G, B).  `ctx.getImageData` yields bytes 0..255; boundedness is carried as a
hypothesis where a claim needs it. -/
def Frame : Type := Nat → Nat → Nat × Nat × Nat

/-- Brightness of one pixel, `(data[idx] + data[idx+1] + data[idx+2]) / 3`
from `getRegionBrightness`. -/
def pixelBrightness (f : Frame) (x y : Nat) : ℚ :=
  (((f x y).1 : ℚ) + ((f x y).2.1 : ℚ) + ((f x y).2.2 : ℚ)) / 3

/-- State and configuration of `MotionDetector` (constructor fields).
Defaults are the constructor defaults (`options.width || 64`, etc.).
`previousBrightness` and `cooldowns` are the two per-cell state arrays. -/
structure MotionDetector where
  width : Nat := 64
  height : Nat := 48
  cols : Nat := 3
  rows : Nat := 3
  threshold : ℚ := 20
  cooldownMs : ℤ := 250
  previousBrightness : List ℚ := List.replicate 9 0
  cooldowns : List ℤ := List.replicate 9 0

/-- Source: `this.cellCount = this.cols * this.rows`. -/
def MotionDetector.cellCount (d : MotionDetector) : Nat := d.cols * d.rows

/-- The detector freshly constructed with all constructor defaults. -/
def defaultDetector : MotionDetector :=
  { previousBrightness := List.replicate 9 0, cooldowns := List.replicate 9 0 }

/-- Embeds `getRegionBrightness(imageData, cellIndex)`: mean of `(R+G+B)/3` over the
cell's rectangle.  The nested `for y … for x` loops accumulate
`totalBrightness` over `cellH * cellW` pixels starting at
`(col*cellW, row*cellH)` with `cellW = floor(width/cols)`,
`cellH = floor(height/rows)`; the function returns
`pixelCount > 0 ? totalBrightness / pixelCount : 0`. -/
def MotionDetector.getRegionBrightness (d : MotionDetector) (f : Frame)
    (cellIndex : Nat) : ℚ :=
  let col := cellIndex % d.cols
  let row := cellIndex / d.cols
  let cellW := d.width / d.cols
  let cellH := d.height / d.rows
  let startX := col * cellW
  let startY := row * cellH
  let total : ℚ :=
    ((List.range cellH).map (fun dy =>
      ((List.range cellW).map (fun dx =>
        pixelBrightness f (startX + dx) (startY + dy))).sum)).sum
  let pixelCount := cellH * cellW
  if 0 < pixelCount then total / (pixelCount : ℚ) else 0

/-- One iteration of the `for (let i = 0; i < this.cellCount; i++)` loop in
`detect()`: compute the cell brightness and `diff`, push the index and arm the
cooldown when `diff > threshold && now > cooldowns[i]`, and unconditionally
write `previousBrightness[i] = brightness`. -/
def detectStep (f : Frame) (now : ℤ) (acc : List Nat × MotionDetector)
    (i : Nat) : List Nat × MotionDetector :=
  let d := acc.2
  let brightness := d.getRegionBrightness f i
  let diff := |brightness - d.previousBrightness.getD i 0|
  if d.threshold < diff ∧ d.cooldowns.getD i 0 < now then
    (acc.1 ++ [i],
      { d with previousBrightness := d.previousBrightness.set i brightness,
               cooldowns := d.cooldowns.set i (now + d.cooldownMs) })
  else
    (acc.1, { d with previousBrightness := d.previousBrightness.set i brightness })

/-- Variant of `detectStep` with the cell brightness abstracted as a parameter (used to
reason about which inputs a loop iteration actually depends on). -/
def stepAt (brightness : ℚ) (now : ℤ) (acc : List Nat × MotionDetector)
    (i : Nat) : List Nat × MotionDetector :=
  let d := acc.2
  let diff := |brightness - d.previousBrightness.getD i 0|
  if d.threshold < diff ∧ d.cooldowns.getD i 0 < now then
    (acc.1 ++ [i],
      { d with previousBrightness := d.previousBrightness.set i brightness,
               cooldowns := d.cooldowns.set i (now + d.cooldownMs) })
  else
    (acc.1, { d with previousBrightness := d.previousBrightness.set i brightness })

/-- Outcome of the frame-acquisition phase of `detect()` (its guards and the
`try`/`catch` around `drawImage`/`getImageData`):
* `noSource`  — `!this.video || !this.ctx`;
* `notReady`  — `this.video.readyState < this.video.HAVE_CURRENT_DATA`;
* `readError` — `drawImage`/`getImageData` threw (caught locally);
* `ok f`      — the downsampled mirrored frame was read successfully. -/
inductive FrameRead where
  | noSource : FrameRead
  | notReady : FrameRead
  | readError : FrameRead
  | ok : Frame → FrameRead

/-- Embeds `detect()`: on any acquisition failure return `[]` with the detector state
untouched; otherwise run the per-cell loop over indices `0 .. cellCount-1`,
returning the `triggered` list and the updated state. -/
def MotionDetector.detect (d : MotionDetector) (fr : FrameRead) (now : ℤ) :
    List Nat × MotionDetector :=
  match fr with
  | .ok f => (List.range d.cellCount).foldl (detectStep f now) ([], d)
  | _ => ([], d)

/-- A sequence of `detect()` calls, each with its frame-read outcome and its
`Date.now()` value; returns the per-call trigger lists and the final state. -/
def runDetect (d : MotionDetector) : List (FrameRead × ℤ) → List (List Nat) × MotionDetector
  | [] => ([], d)
  | (fr, t) :: rest =>
    let r := d.detect fr t
    let rs := runDetect r.2 rest
    (r.1 :: rs.1, rs.2)

/-- A frame sequence in which every read succeeds, with its call times. -/
def okSteps (l : List (Frame × ℤ)) : List (FrameRead × ℤ) :=
  l.map (fun p => (FrameRead.ok p.1, p.2))

/-- Embeds `setThreshold(value)`: `this.threshold = Math.max(1, Math.min(100, value))`. -/
def MotionDetector.setThreshold (d : MotionDetector) (value : ℚ) : MotionDetector :=
  { d with threshold := max 1 (min 100 value) }

/-- Embeds `setCooldown(ms)`: `this.cooldownMs = Math.max(50, Math.min(1000, ms))`. -/
def MotionDetector.setCooldown (d : MotionDetector) (ms : ℤ) : MotionDetector :=
  { d with cooldownMs := max 50 (min 1000 ms) }

/-- The source rectangle actually sampled by `detect()` step 2:
`ctx.drawImage(this.video, -width, 0, width, height)` under `scale(-1, 1)`
uses the drawImage overload with no source rectangle, so the whole
`videoW × videoH` frame is mapped (mirrored) onto the full target canvas:
rectangle (x, y, w, h) = (0, 0, videoW, videoH). -/
def sampledSourceRect (videoW videoH : Nat) : Nat × Nat × Nat × Nat :=
  (0, 0, videoW, videoH)

/-- Modelled from the spec (the crop mode is absent from the detector code):
center-crop of a `videoW × videoH` source to the grid's aspect ratio
(`width : height`), matching a CSS `object-fit: cover` fit. -/
def coverCropRect (d : MotionDetector) (videoW videoH : Nat) : Nat × Nat × Nat × Nat :=
  if videoW * d.height > videoH * d.width then
    -- source wider than the grid: crop left and right, keep full height
    let cropW := videoH * d.width / d.height
    ((videoW - cropW) / 2, 0, cropW, videoH)
  else
    -- source taller (or equal): crop top and bottom, keep full width
    let cropH := videoW * d.height / d.width
    (0, (videoH - cropH) / 2, videoW, cropH)

/-- Membership of pixel (x, y) in the rectangle that `getRegionBrightness`
samples for cell `i` (the spec's "equal-sized rectangular cells"). -/
def MotionDetector.inCellRegion (d : MotionDetector) (i x y : Nat) : Prop :=
  (i % d.cols) * (d.width / d.cols) ≤ x ∧
  x < (i % d.cols) * (d.width / d.cols) + d.width / d.cols ∧
  (i / d.cols) * (d.height / d.rows) ≤ y ∧
  y < (i / d.cols) * (d.height / d.rows) + d.height / d.rows

instance (d : MotionDetector) (i x y : Nat) : Decidable (d.inCellRegion i x y) := by
  unfold MotionDetector.inCellRegion; infer_instance

/-- The cells of the grid that contain pixel (x, y). -/
def coveringCells (d : MotionDetector) (x y : Nat) : List Nat :=
  (List.range d.cellCount).filter (fun i => decide (d.inCellRegion i x y))

/-- The trigger guard of the `detect()` loop, read off the initial state of a
pass: `diff > threshold && now > cooldowns[i]`. -/
def trigCond (d : MotionDetector) (f : Frame) (now : ℤ) (i : Nat) : Prop :=
  d.threshold < |d.getRegionBrightness f i - d.previousBrightness.getD i 0| ∧
  d.cooldowns.getD i 0 < now

instance (d : MotionDetector) (f : Frame) (now : ℤ) (i : Nat) :
    Decidable (trigCond d f now i) := by
  unfold trigCond; infer_instance

/-- The set of frame-buffer pixels belonging to cell `i` (spec's "all pixels
in the cell", as a subset of the `width × height` buffer). -/
def cellPixelSet (d : MotionDetector) (i : Nat) : Finset (Nat × Nat) :=
  (Finset.range d.width ×ˢ Finset.range d.height).filter
    (fun p => d.inCellRegion i p.1 p.2)

/-- The spec's per-cell brightness: "average over all pixels in the cell of
(R+G+B)/3". -/
def cellAverage (d : MotionDetector) (f : Frame) (i : Nat) : ℚ :=
  (∑ p in cellPixelSet d i, pixelBrightness f p.1 p.2) /
    ((cellPixelSet d i).card : ℚ)

/-- A uniform frame: every pixel has channels (c, c, c). -/
def constFrame (c : Nat) : Frame := fun _ _ => (c, c, c)

/-- A uniform frame with channels (88, 91, 91): pixel data different from
`constFrame 90` but with the same per-pixel brightness (88+91+91)/3 = 90. -/
def altFrame : Frame := fun _ _ => (88, 91, 91)

/-- Detector built with constructor options `{width: 3, height: 3}`: each grid
cell is a single pixel, which keeps concrete runs small. -/
def tinyDetector : MotionDetector :=
  { width := 3, height := 3, threshold := 20, cooldownMs := 250,
    previousBrightness := List.replicate 9 0, cooldowns := List.replicate 9 0 }

/-- The `tinyDetector` part way through a session: cell 0's cooldown expires at
time 5 (`cooldowns[0] = 5`). -/
def cooldownDetector : MotionDetector :=
  { tinyDetector with cooldowns := 5 :: List.replicate 8 0 }

/- ------------------------------------------------------------------ -/
/- Audio engine (audio.js)                                             -/
/- ------------------------------------------------------------------ -/

/-- The state of the platform `AudioContext` held by `SynthDrums`. -/
inductive AudioCtxState where
  | running : AudioCtxState
  | suspended : AudioCtxState
deriving DecidableEq

/-- State of a `SynthDrums` instance.  The constructor sets
`this.audioContext = null`; `init()` installs a context (plus the master gain
and the shared noise buffer, which no claim depends on). -/
structure SynthDrums where
  audioContext : Option AudioCtxState := none

/-- Embeds `init()`: creates the `AudioContext` and resumes it if suspended. -/
def SynthDrums.init (s : SynthDrums) : SynthDrums :=
  { s with audioContext := some .running }

/-- Embeds `dispose()`: `audioContext.close()` and `this.audioContext = null`. -/
def SynthDrums.dispose (s : SynthDrums) : SynthDrums :=
  { s with audioContext := none }

/-- The nine synthesized voices of audio.js. -/
inductive Voice where
  | kick | snare | hihat | clap | tom1 | tom2 | crash | ride | synth
deriving DecidableEq

/-- Observable effect of one `play(soundName)` call:
* `silent`       — the early return `if (!this.audioContext) return;`
* `synthesized v`— one of the `playKick`/…/`playSynth` helpers ran;
* `warned s`     — the switch's `default:` branch, `console.warn`. -/
inductive PlayEffect where
  | silent : PlayEffect
  | synthesized : Voice → PlayEffect
  | warned : String → PlayEffect
deriving DecidableEq

/-- Embeds `play(soundName)`: guard on a missing context, then the `switch` over the
nine voice names (the suspended-context resume is a platform side effect with
no bearing on which branch runs). -/
def SynthDrums.play (s : SynthDrums) (soundName : String) : PlayEffect :=
  match s.audioContext with
  | none => .silent
  | some _ =>
    if soundName = "kick" then .synthesized .kick
    else if soundName = "snare" then .synthesized .snare
    else if soundName = "hihat" then .synthesized .hihat
    else if soundName = "clap" then .synthesized .clap
    else if soundName = "tom1" then .synthesized .tom1
    else if soundName = "tom2" then .synthesized .tom2
    else if soundName = "crash" then .synthesized .crash
    else if soundName = "ride" then .synthesized .ride
    else if soundName = "synth" then .synthesized .synth
    else .warned soundName

/-- The fixed voice-name enumeration. -/
def voiceNames : List String :=
  ["kick", "snare", "hihat", "clap", "tom1", "tom2", "crash", "ride", "synth"]

/- ------------------------------------------------------------------ -/
/- Basic list helpers                                                  -/
/- ------------------------------------------------------------------ -/

theorem getD_set_self {α : Type} (l : List α) (i : Nat) (a d : α)
    (h : i < l.length) : (l.set i a).getD i d = a := by
  rw [List.getD_eq_getElem?_getD, List.getElem?_set_self]
  · rfl
  · exact h

theorem getD_set_ne {α : Type} (l : List α) {i j : Nat} (a d : α)
    (h : i ≠ j) : (l.set i a).getD j d = l.getD j d := by
  rw [List.getD_eq_getElem?_getD, List.getElem?_set_ne h, ← List.getD_eq_getElem?_getD]

theorem listRangeMapSum (n : Nat) (g : Nat → ℚ) :
    ((List.range n).map g).sum = ∑ k in Finset.range n, g k := by
  induction n with
  | zero => simp
  | succ m ih =>
    rw [List.range_succ, Finset.sum_range_succ, List.map_append, List.sum_append, ih]
    simp

/- ------------------------------------------------------------------ -/
/- detectStep / foldl infrastructure                                   -/
/- ------------------------------------------------------------------ -/

theorem getRegionBrightness_update (d : MotionDetector) (p : List ℚ) (c : List ℤ) :
    ({ d with previousBrightness := p, cooldowns := c } : MotionDetector).getRegionBrightness
      = d.getRegionBrightness := rfl

theorem getRegionBrightness_update_prev (d : MotionDetector) (p : List ℚ) :
    ({ d with previousBrightness := p } : MotionDetector).getRegionBrightness
      = d.getRegionBrightness := rfl

/-- One loop iteration preserves the configuration fields and the lengths of
the two state arrays. -/
theorem detectStep_preserves (f : Frame) (now : ℤ) (acc : List Nat × MotionDetector)
    (i : Nat) :
    (detectStep f now acc i).2.width = acc.2.width ∧
    (detectStep f now acc i).2.height = acc.2.height ∧
    (detectStep f now acc i).2.cols = acc.2.cols ∧
    (detectStep f now acc i).2.rows = acc.2.rows ∧
    (detectStep f now acc i).2.threshold = acc.2.threshold ∧
    (detectStep f now acc i).2.cooldownMs = acc.2.cooldownMs ∧
    (detectStep f now acc i).2.previousBrightness.length
      = acc.2.previousBrightness.length ∧
    (detectStep f now acc i).2.cooldowns.length = acc.2.cooldowns.length := by
  unfold detectStep
  dsimp only
  split <;> simp

/-- The whole loop preserves the configuration fields and the lengths of the
two state arrays. -/
theorem foldl_detectStep_preserves (f : Frame) (now : ℤ) :
    ∀ (l : List Nat) (acc : List Nat × MotionDetector),
    (l.foldl (detectStep f now) acc).2.width = acc.2.width ∧
    (l.foldl (detectStep f now) acc).2.height = acc.2.height ∧
    (l.foldl (detectStep f now) acc).2.cols = acc.2.cols ∧
    (l.foldl (detectStep f now) acc).2.rows = acc.2.rows ∧
    (l.foldl (detectStep f now) acc).2.threshold = acc.2.threshold ∧
    (l.foldl (detectStep f now) acc).2.cooldownMs = acc.2.cooldownMs ∧
    (l.foldl (detectStep f now) acc).2.previousBrightness.length
      = acc.2.previousBrightness.length ∧
    (l.foldl (detectStep f now) acc).2.cooldowns.length = acc.2.cooldowns.length := by
  intro l
  induction l with
  | nil => intro acc; simp
  | cons i rest ih =>
    intro acc
    rw [List.foldl_cons]
    have h1 := detectStep_preserves f now acc i
    have h2 := ih (detectStep f now acc i)
    exact ⟨h2.1.trans h1.1, (h2.2.1).trans h1.2.1, (h2.2.2.1).trans h1.2.2.1,
      (h2.2.2.2.1).trans h1.2.2.2.1, (h2.2.2.2.2.1).trans h1.2.2.2.2.1,
      (h2.2.2.2.2.2.1).trans h1.2.2.2.2.2.1,
      (h2.2.2.2.2.2.2.1).trans h1.2.2.2.2.2.2.1,
      (h2.2.2.2.2.2.2.2).trans h1.2.2.2.2.2.2.2⟩

/-- The trigger guard at an index `j` other than the one the step wrote. -/
theorem trigCond_detectStep_ne (f : Frame) (now : ℤ)
    (acc : List Nat × MotionDetector) {i j : Nat} (hij : i ≠ j) :
    trigCond ((detectStep f now acc i).2) f now j ↔ trigCond acc.2 f now j := by
  unfold trigCond detectStep
  dsimp only
  split <;>
    simp [getRegionBrightness_update, getRegionBrightness_update_prev,
      List.getD_eq_getElem?_getD, List.getElem?_set_ne hij]

/-- Loop iterations over indices other than `j` leave `j`'s per-cell state and
its membership in `triggered` unchanged. -/
theorem foldl_detectStep_untouched (f : Frame) (now : ℤ) (j : Nat) :
    ∀ (l : List Nat) (acc : List Nat × MotionDetector), j ∉ l →
      ((j ∈ (l.foldl (detectStep f now) acc).1 ↔ j ∈ acc.1) ∧
       (l.foldl (detectStep f now) acc).2.previousBrightness.getD j 0
         = acc.2.previousBrightness.getD j 0 ∧
       (l.foldl (detectStep f now) acc).2.cooldowns.getD j 0
         = acc.2.cooldowns.getD j 0) := by
  intro l
  induction l with
  | nil => intro acc _; simp
  | cons i rest ih =>
    intro acc hj
    have hij : i ≠ j := fun h => hj (h ▸ List.mem_cons_self i rest)
    have hrest : j ∉ rest := fun h => hj (List.mem_cons_of_mem _ h)
    have ihr := ih (detectStep f now acc i) hrest
    rw [List.foldl_cons]
    refine ⟨ihr.1.trans ?_, ihr.2.1.trans ?_, ihr.2.2.trans ?_⟩
    · unfold detectStep; dsimp only; split <;> simp [hij.symm]
    · unfold detectStep; dsimp only; split <;>
        simp [List.getD_eq_getElem?_getD, List.getElem?_set_ne hij]
    · unfold detectStep; dsimp only; split <;>
        simp [List.getD_eq_getElem?_getD, List.getElem?_set_ne hij]

theorem detectStep_fst_mem_ne (f : Frame) (now : ℤ) (acc : List Nat × MotionDetector)
    {i j : Nat} (hij : i ≠ j) : (j ∈ (detectStep f now acc i).1 ↔ j ∈ acc.1) := by
  unfold detectStep; dsimp only; split <;> simp [hij.symm]

theorem detectStep_grb (f : Frame) (now : ℤ) (acc : List Nat × MotionDetector)
    (i : Nat) : (detectStep f now acc i).2.getRegionBrightness
      = acc.2.getRegionBrightness := by
  unfold detectStep; dsimp only; split <;> rfl

/-- Behaviour of the loop at an index `j` that it processes exactly once. -/
theorem foldl_detectStep_processed (f : Frame) (now : ℤ) (j : Nat) :
    ∀ (l : List Nat) (acc : List Nat × MotionDetector), l.Nodup → j ∈ l →
      ((j ∈ (l.foldl (detectStep f now) acc).1 ↔
          (j ∈ acc.1 ∨ trigCond acc.2 f now j)) ∧
       (trigCond acc.2 f now j → j < acc.2.cooldowns.length →
         (l.foldl (detectStep f now) acc).2.cooldowns.getD j 0
           = now + acc.2.cooldownMs) ∧
       (¬ trigCond acc.2 f now j →
         (l.foldl (detectStep f now) acc).2.cooldowns.getD j 0
           = acc.2.cooldowns.getD j 0) ∧
       (j < acc.2.previousBrightness.length →
         (l.foldl (detectStep f now) acc).2.previousBrightness.getD j 0
           = acc.2.getRegionBrightness f j)) := by
  intro l
  induction l with
  | nil => intro acc _ h; simp at h
  | cons i rest ih =>
    intro acc hnd hj
    rw [List.foldl_cons]
    rcases List.mem_cons.mp hj with hji | hjr
    · subst hji
      have hrest : j ∉ rest := (List.nodup_cons.mp hnd).1
      have hu := foldl_detectStep_untouched f now j rest (detectStep f now acc j) hrest
      by_cases ht : trigCond acc.2 f now j
      · have ht' := ht
        unfold trigCond at ht'
        have hstep : detectStep f now acc j =
            (acc.1 ++ [j],
              { acc.2 with
                  previousBrightness :=
                    acc.2.previousBrightness.set j (acc.2.getRegionBrightness f j),
                  cooldowns := acc.2.cooldowns.set j (now + acc.2.cooldownMs) }) := by
          unfold detectStep; dsimp only; rw [if_pos ht']
        rw [hstep] at hu ⊢
        refine ⟨?_, ?_, ?_, ?_⟩
        · rw [hu.1]; simp [ht]
        · intro _ hlen
          rw [hu.2.2]
          exact getD_set_self _ _ _ _ hlen
        · intro h; exact absurd ht h
        · intro hlen
          rw [hu.2.1]
          exact getD_set_self _ _ _ _ hlen
      · have ht' := ht
        unfold trigCond at ht'
        have hstep : detectStep f now acc j =
            (acc.1,
              { acc.2 with
                  previousBrightness :=
                    acc.2.previousBrightness.set j (acc.2.getRegionBrightness f j) }) := by
          unfold detectStep; dsimp only; rw [if_neg ht']
        rw [hstep] at hu ⊢
        refine ⟨?_, ?_, ?_, ?_⟩
        · rw [hu.1]; simp [ht]
        · intro h; exact absurd h ht
        · intro _; rw [hu.2.2]
        · intro hlen
          rw [hu.2.1]
          exact getD_set_self _ _ _ _ hlen
    · have hir : i ∉ rest := (List.nodup_cons.mp hnd).1
      have hij : i ≠ j := fun h => hir (h ▸ hjr)
      have ihr := ih (detectStep f now acc i) (List.nodup_cons.mp hnd).2 hjr
      have hpres := detectStep_preserves f now acc i
      have htc := trigCond_detectStep_ne f now acc hij
      have hmem := detectStep_fst_mem_ne f now acc hij
      have hcd : (detectStep f now acc i).2.cooldowns.getD j 0
          = acc.2.cooldowns.getD j 0 := by
        unfold detectStep; dsimp only; split <;>
          simp [List.getD_eq_getElem?_getD, List.getElem?_set_ne hij]
      have hpv : (detectStep f now acc i).2.previousBrightness.getD j 0
          = acc.2.previousBrightness.getD j 0 := by
        unfold detectStep; dsimp only; split <;>
          simp [List.getD_eq_getElem?_getD, List.getElem?_set_ne hij]
      refine ⟨?_, ?_, ?_, ?_⟩
      · rw [ihr.1, hmem, htc]
      · intro ht hlen
        rw [ihr.2.1 (htc.mpr ht) (by rw [hpres.2.2.2.2.2.2.2]; exact hlen),
          hpres.2.2.2.2.2.1]
      · intro ht
        rw [ihr.2.2.1 (fun h => ht (htc.mp h)), hcd]
      · intro hlen
        rw [ihr.2.2.2 (by rw [hpres.2.2.2.2.2.2.1]; exact hlen), detectStep_grb]

/-- Membership in the `triggered` result of a successful pass, characterized by
the initial state: exactly the in-range indices whose brightness delta beats
the threshold while the cell is off cooldown (`now` strictly beyond the
stored deadline). -/
theorem detect_mem_iff (d : MotionDetector) (f : Frame) (now : ℤ) (j : Nat) :
    j ∈ (d.detect (.ok f) now).1 ↔ j < d.cellCount ∧ trigCond d f now j := by
  unfold MotionDetector.detect
  by_cases hj : j < d.cellCount
  · have h := foldl_detectStep_processed f now j (List.range d.cellCount) ([], d)
      (List.nodup_range _) (List.mem_range.mpr hj)
    rw [h.1]; simp [hj]
  · have h := foldl_detectStep_untouched f now j (List.range d.cellCount) ([], d)
      (by simpa using hj)
    rw [h.1]; simp [hj]

/-- A triggering cell's cooldown deadline is rewritten to `now + cooldownMs`. -/
theorem detect_cooldown_of_trigger (d : MotionDetector) (f : Frame) (now : ℤ)
    (j : Nat) (hj : j < d.cellCount) (hlen : j < d.cooldowns.length)
    (ht : trigCond d f now j) :
    ((d.detect (.ok f) now).2).cooldowns.getD j 0 = now + d.cooldownMs := by
  unfold MotionDetector.detect
  exact (foldl_detectStep_processed f now j (List.range d.cellCount) ([], d)
    (List.nodup_range _) (List.mem_range.mpr hj)).2.1 ht hlen

/-- A cell that does not trigger keeps its cooldown deadline. -/
theorem detect_cooldown_of_no_trigger (d : MotionDetector) (f : Frame) (now : ℤ)
    (j : Nat) (ht : ¬ trigCond d f now j) :
    ((d.detect (.ok f) now).2).cooldowns.getD j 0 = d.cooldowns.getD j 0 := by
  unfold MotionDetector.detect
  by_cases hj : j < d.cellCount
  · exact (foldl_detectStep_processed f now j (List.range d.cellCount) ([], d)
      (List.nodup_range _) (List.mem_range.mpr hj)).2.2.1 ht
  · exact (foldl_detectStep_untouched f now j (List.range d.cellCount) ([], d)
      (by simpa using hj)).2.2

/-- Every in-range cell's `previousBrightness` is overwritten with the pass's
brightness, triggered or not. -/
theorem detect_prev_update (d : MotionDetector) (f : Frame) (now : ℤ)
    (j : Nat) (hj : j < d.cellCount) (hlen : j < d.previousBrightness.length) :
    ((d.detect (.ok f) now).2).previousBrightness.getD j 0
      = d.getRegionBrightness f j := by
  unfold MotionDetector.detect
  exact (foldl_detectStep_processed f now j (List.range d.cellCount) ([], d)
    (List.nodup_range _) (List.mem_range.mpr hj)).2.2.2 hlen

/-- The call `detect()` never changes configuration fields or state-array lengths. -/
theorem detect_preserves (d : MotionDetector) (fr : FrameRead) (now : ℤ) :
    ((d.detect fr now).2).width = d.width ∧
    ((d.detect fr now).2).height = d.height ∧
    ((d.detect fr now).2).cols = d.cols ∧
    ((d.detect fr now).2).rows = d.rows ∧
    ((d.detect fr now).2).threshold = d.threshold ∧
    ((d.detect fr now).2).cooldownMs = d.cooldownMs ∧
    ((d.detect fr now).2).previousBrightness.length = d.previousBrightness.length ∧
    ((d.detect fr now).2).cooldowns.length = d.cooldowns.length := by
  match fr with
  | .ok f => exact foldl_detectStep_preserves f now (List.range d.cellCount) ([], d)
  | .noSource => exact ⟨rfl, rfl, rfl, rfl, rfl, rfl, rfl, rfl⟩
  | .notReady => exact ⟨rfl, rfl, rfl, rfl, rfl, rfl, rfl, rfl⟩
  | .readError => exact ⟨rfl, rfl, rfl, rfl, rfl, rfl, rfl, rfl⟩

theorem detect_cellCount (d : MotionDetector) (fr : FrameRead) (now : ℤ) :
    ((d.detect fr now).2).cellCount = d.cellCount := by
  unfold MotionDetector.cellCount
  rw [(detect_preserves d fr now).2.2.1, (detect_preserves d fr now).2.2.2.1]

theorem detect_grb_eq (d : MotionDetector) (fr : FrameRead) (now : ℤ) :
    ((d.detect fr now).2).getRegionBrightness = d.getRegionBrightness := by
  funext f i
  unfold MotionDetector.getRegionBrightness
  rw [(detect_preserves d fr now).1, (detect_preserves d fr now).2.1,
    (detect_preserves d fr now).2.2.1, (detect_preserves d fr now).2.2.2.1]

/-- On a uniform frame every cell's brightness is the pixel value. -/
theorem getRegionBrightness_constFrame (d : MotionDetector) (c : Nat) (i : Nat)
    (hw : 0 < d.width / d.cols) (hh : 0 < d.height / d.rows) :
    d.getRegionBrightness (constFrame c) i = c := by
  unfold MotionDetector.getRegionBrightness
  have hpix : ∀ x y : Nat, pixelBrightness (constFrame c) x y = ((c : ℚ) + c + c) / 3 :=
    fun x y => rfl
  simp only [hpix, listRangeMapSum, Finset.sum_const, Finset.card_range, nsmul_eq_mul]
  rw [if_pos (Nat.mul_pos hh hw)]
  have h3 : ((d.height / d.rows * (d.width / d.cols) : Nat) : ℚ) ≠ 0 := by
    exact_mod_cast Nat.pos_iff_ne_zero.mp (Nat.mul_pos hh hw)
  push_cast at h3 ⊢
  field_simp
  ring

/-- The `triggered` accumulator stays strictly sorted and only collects indices
from the remaining loop range. -/
theorem foldl_detectStep_sorted (f : Frame) (now : ℤ) :
    ∀ (l : List Nat) (acc : List Nat × MotionDetector),
      l.Sorted (· < ·) → acc.1.Sorted (· < ·) → (∀ a ∈ acc.1, ∀ b ∈ l, a < b) →
      ((l.foldl (detectStep f now) acc).1.Sorted (· < ·) ∧
       ∀ x ∈ (l.foldl (detectStep f now) acc).1, x ∈ acc.1 ∨ x ∈ l) := by
  intro l
  induction l with
  | nil => intro acc _ hs _; exact ⟨hs, fun x hx => Or.inl hx⟩
  | cons i rest ih =>
    intro acc hl hs hbelow
    rw [List.foldl_cons]
    have hli : ∀ b ∈ rest, i < b := (List.sorted_cons.mp hl).1
    have hlr : rest.Sorted (· < ·) := (List.sorted_cons.mp hl).2
    have hstep1 : (detectStep f now acc i).1 = acc.1 ∨
        (detectStep f now acc i).1 = acc.1 ++ [i] := by
      unfold detectStep; dsimp only; split
      · exact Or.inr rfl
      · exact Or.inl rfl
    have hsorted' : (detectStep f now acc i).1.Sorted (· < ·) := by
      rcases hstep1 with h | h <;> rw [h]
      · exact hs
      · unfold List.Sorted at hs ⊢
        rw [List.pairwise_append]
        exact ⟨hs, by simp, by simpa using fun a ha => hbelow a ha i (by simp)⟩
    have hbelow' : ∀ a ∈ (detectStep f now acc i).1, ∀ b ∈ rest, a < b := by
      rcases hstep1 with h | h <;> rw [h]
      · exact fun a ha b hb => hbelow a ha b (List.mem_cons_of_mem _ hb)
      · intro a ha b hb
        rcases List.mem_append.mp ha with h1 | h1
        · exact hbelow a h1 b (List.mem_cons_of_mem _ hb)
        · rw [List.mem_singleton.mp h1]; exact hli b hb
    have hr := ih (detectStep f now acc i) hlr hsorted' hbelow'
    refine ⟨hr.1, fun x hx => ?_⟩
    rcases hr.2 x hx with h1 | h1
    · rcases hstep1 with h | h <;> rw [h] at h1
      · exact Or.inl h1
      · rcases List.mem_append.mp h1 with h2 | h2
        · exact Or.inl h2
        · exact Or.inr (List.mem_cons.mpr (Or.inl (List.mem_singleton.mp h2)))
    · exact Or.inr (List.mem_cons_of_mem _ h1)

/-- Generic: two fold steps that agree on states satisfying an invariant `P`
(preserved by the second step) fold identically over elements satisfying `Q`. -/
theorem foldl_congr_inv {α β : Type} (s1 s2 : β → α → β) (P : β → Prop)
    (Q : α → Prop) (hpres : ∀ b a, P b → P (s2 b a))
    (hagree : ∀ b a, P b → Q a → s1 b a = s2 b a) :
    ∀ (l : List α) (b : β), P b → (∀ a ∈ l, Q a) →
      l.foldl s1 b = l.foldl s2 b := by
  intro l
  induction l with
  | nil => intro b _ _; rfl
  | cons a rest ih =>
    intro b hP hQ
    rw [List.foldl_cons, List.foldl_cons, hagree b a hP (hQ a (List.mem_cons_self _ _))]
    exact ih (s2 b a) (hpres b a hP) (fun x hx => hQ x (List.mem_cons_of_mem _ hx))

/-- One loop iteration depends on the frame only through the cell brightness. -/
theorem detectStep_congr (now : ℤ) (f g : Frame)
    (acc : List Nat × MotionDetector) (i : Nat)
    (hb : acc.2.getRegionBrightness f i = acc.2.getRegionBrightness g i) :
    detectStep f now acc i = detectStep g now acc i := by
  rw [show detectStep f now acc i
        = stepAt (acc.2.getRegionBrightness f i) now acc i from rfl,
      show detectStep g now acc i
        = stepAt (acc.2.getRegionBrightness g i) now acc i from rfl,
      hb]

/-- A pass reads the frame only through the nine per-cell brightness values:
frames with identical brightness grids are indistinguishable to `detect()`. -/
theorem foldl_detectStep_congr (now : ℤ) (f g : Frame) (n : Nat)
    (l : List Nat) (acc : List Nat × MotionDetector)
    (hl : ∀ a ∈ l, a < n)
    (hfg : ∀ i < n, acc.2.getRegionBrightness f i = acc.2.getRegionBrightness g i) :
    l.foldl (detectStep f now) acc = l.foldl (detectStep g now) acc := by
  refine foldl_congr_inv (detectStep f now) (detectStep g now)
    (fun b => ∀ i < n, b.2.getRegionBrightness f i = b.2.getRegionBrightness g i)
    (fun a => a < n) ?_ ?_ l acc hfg hl
  · intro b a hP i hi
    rw [detectStep_grb]
    exact hP i hi
  · intro b a hP hQ
    exact detectStep_congr now f g b a (hP a hQ)

/-- While every call time stays at or below a cell's stored cooldown deadline,
the cell never triggers and its deadline never moves. -/
theorem runDetect_no_retrigger (i : Nat) :
    ∀ (steps : List (FrameRead × ℤ)) (d : MotionDetector) (B : ℤ),
      d.cooldowns.getD i 0 = B → (∀ p ∈ steps, p.2 ≤ B) →
      ((∀ out ∈ (runDetect d steps).1, i ∉ out) ∧
       (runDetect d steps).2.cooldowns.getD i 0 = B) := by
  intro steps
  induction steps with
  | nil => intro d B hB _; exact ⟨by simp [runDetect], hB⟩
  | cons p rest ih =>
    intro d B hB htimes
    obtain ⟨fr, t⟩ := p
    have ht : t ≤ B := htimes (fr, t) (List.mem_cons_self _ _)
    have hnotrig : i ∉ (d.detect fr t).1 := by
      match fr with
      | .noSource => simp [MotionDetector.detect]
      | .notReady => simp [MotionDetector.detect]
      | .readError => simp [MotionDetector.detect]
      | .ok f =>
        rw [detect_mem_iff]
        rintro ⟨-, -, hcd⟩
        rw [hB] at hcd
        exact absurd ht (not_le.mpr hcd)
    have hpres : ((d.detect fr t).2).cooldowns.getD i 0 = B := by
      match fr with
      | .noSource => exact hB
      | .notReady => exact hB
      | .readError => exact hB
      | .ok f =>
        rw [detect_cooldown_of_no_trigger]
        · exact hB
        · rintro ⟨-, hcd⟩
          rw [hB] at hcd
          exact absurd ht (not_le.mpr hcd)
    have hr := ih ((d.detect fr t).2) B hpres
      (fun q hq => htimes q (List.mem_cons_of_mem _ hq))
    refine ⟨fun out hout => ?_, ?_⟩
    · unfold runDetect at hout
      dsimp only at hout
      rcases List.mem_cons.mp hout with h | h
      · rw [h]; exact hnotrig
      · exact hr.1 out h
    · unfold runDetect
      dsimp only
      exact hr.2

/-- Running `detect()` on frames with identical per-cell brightness grids: identical
result and identical successor state. -/
theorem detect_congr (d : MotionDetector) (f g : Frame) (now : ℤ)
    (h : ∀ i < d.cellCount,
      d.getRegionBrightness f i = d.getRegionBrightness g i) :
    d.detect (.ok f) now = d.detect (.ok g) now := by
  unfold MotionDetector.detect
  exact foldl_detectStep_congr now f g d.cellCount (List.range d.cellCount)
    ([], d) (fun a ha => List.mem_range.mp ha) h

/-- Whole-run version of `detect_congr`, over any start state sharing the
original detector's configuration. -/
theorem runDetect_congr (d : MotionDetector) :
    ∀ (l1 l2 : List (Frame × ℤ)),
      List.Forall₂ (fun p q => p.2 = q.2 ∧
        ∀ i < d.cellCount,
          d.getRegionBrightness p.1 i = d.getRegionBrightness q.1 i) l1 l2 →
      ∀ (e : MotionDetector),
        e.getRegionBrightness = d.getRegionBrightness →
        e.cellCount = d.cellCount →
        runDetect e (okSteps l1) = runDetect e (okSteps l2) := by
  intro l1 l2 hrel
  induction hrel with
  | nil => intro e _ _; rfl
  | @cons p q t1 t2 hpq htail ih =>
    intro e hgrb hcc
    have hstep : e.detect (.ok p.1) p.2 = e.detect (.ok q.1) q.2 := by
      rw [hpq.1]
      apply detect_congr
      intro i hi
      rw [hgrb]
      exact hpq.2 i (hcc ▸ hi)
    have htl := ih ((e.detect (.ok q.1) q.2).2)
      (by rw [detect_grb_eq]; exact hgrb)
      (by rw [detect_cellCount]; exact hcc)
    show ((e.detect (.ok p.1) p.2).1 ::
        (runDetect (e.detect (.ok p.1) p.2).2 (okSteps t1)).1,
        (runDetect (e.detect (.ok p.1) p.2).2 (okSteps t1)).2)
      = ((e.detect (.ok q.1) q.2).1 ::
        (runDetect (e.detect (.ok q.1) q.2).2 (okSteps t2)).1,
        (runDetect (e.detect (.ok q.1) q.2).2 (okSteps t2)).2)
    rw [hstep, htl]

theorem cellPixelSet_eq (d : MotionDetector) (i : Nat)
    (hcols : 0 < d.cols) (hi : i < d.cellCount) :
    cellPixelSet d i =
      (Finset.Ico ((i % d.cols) * (d.width / d.cols))
          ((i % d.cols) * (d.width / d.cols) + d.width / d.cols)) ×ˢ
      (Finset.Ico ((i / d.cols) * (d.height / d.rows))
          ((i / d.cols) * (d.height / d.rows) + d.height / d.rows)) := by
  have h1 : (i % d.cols) * (d.width / d.cols) + d.width / d.cols ≤ d.width := by
    have hcol : i % d.cols + 1 ≤ d.cols := Nat.mod_lt _ hcols
    calc (i % d.cols) * (d.width / d.cols) + d.width / d.cols
        = (i % d.cols + 1) * (d.width / d.cols) := by ring
      _ ≤ d.cols * (d.width / d.cols) := Nat.mul_le_mul_right _ hcol
      _ = (d.width / d.cols) * d.cols := Nat.mul_comm _ _
      _ ≤ d.width := Nat.div_mul_le_self _ _
  have h2 : (i / d.cols) * (d.height / d.rows) + d.height / d.rows ≤ d.height := by
    have hrow : i / d.cols + 1 ≤ d.rows := by
      have hlt : i < d.rows * d.cols := by
        rw [Nat.mul_comm]; exact hi
      exact (Nat.div_lt_iff_lt_mul hcols).mpr hlt
    calc (i / d.cols) * (d.height / d.rows) + d.height / d.rows
        = (i / d.cols + 1) * (d.height / d.rows) := by ring
      _ ≤ d.rows * (d.height / d.rows) := Nat.mul_le_mul_right _ hrow
      _ = (d.height / d.rows) * d.rows := Nat.mul_comm _ _
      _ ≤ d.height := Nat.div_mul_le_self _ _
  ext p
  obtain ⟨x, y⟩ := p
  simp only [cellPixelSet, Finset.mem_filter, Finset.mem_product, Finset.mem_range,
    Finset.mem_Ico, MotionDetector.inCellRegion]
  omega


theorem card_cellPixelSet (d : MotionDetector) (i : Nat)
    (hcols : 0 < d.cols) (hi : i < d.cellCount) :
    (cellPixelSet d i).card = (d.width / d.cols) * (d.height / d.rows) := by
  rw [cellPixelSet_eq d i hcols hi, Finset.card_product, Nat.card_Ico, Nat.card_Ico]
  simp [Nat.add_sub_cancel_left]

/-- The loop of `getRegionBrightness` computes exactly the spec's average over
the cell's pixel set. -/
theorem getRegionBrightness_eq_cellAverage (d : MotionDetector) (f : Frame)
    (i : Nat) (hcols : 0 < d.cols) (hi : i < d.cellCount) :
    d.getRegionBrightness f i = cellAverage d f i := by
  have hS : (∑ p in cellPixelSet d i, pixelBrightness f p.1 p.2)
      = ∑ dy in Finset.range (d.height / d.rows),
          ∑ dx in Finset.range (d.width / d.cols),
            pixelBrightness f ((i % d.cols) * (d.width / d.cols) + dx)
              ((i / d.cols) * (d.height / d.rows) + dy) := by
    rw [cellPixelSet_eq d i hcols hi, Finset.sum_product]
    rw [Finset.sum_Ico_eq_sum_range]
    simp only [Nat.add_sub_cancel_left, Finset.sum_Ico_eq_sum_range]
    exact Finset.sum_comm
  unfold MotionDetector.getRegionBrightness cellAverage
  simp only [listRangeMapSum]
  rw [hS, card_cellPixelSet d i hcols hi]
  by_cases hpos : 0 < d.height / d.rows * (d.width / d.cols)
  · rw [if_pos hpos, Nat.mul_comm (d.width / d.cols) (d.height / d.rows)]
  · rw [if_neg hpos]
    have h0 : d.height / d.rows * (d.width / d.cols) = 0 := Nat.eq_zero_of_not_pos hpos
    rw [show ((d.width / d.cols * (d.height / d.rows) : Nat) : ℚ) = 0 by
      rw [Nat.mul_comm, h0]; norm_num]
    rw [div_zero]

/-- Pixel brightness lies in [0, 255] whenever the three channels are bytes. -/
theorem pixelBrightness_bounds (f : Frame) (x y : Nat)
    (h1 : (f x y).1 ≤ 255) (h2 : (f x y).2.1 ≤ 255) (h3 : (f x y).2.2 ≤ 255) :
    0 ≤ pixelBrightness f x y ∧ pixelBrightness f x y ≤ 255 := by
  unfold pixelBrightness
  constructor
  · positivity
  · rw [div_le_iff₀ (by norm_num : (0:ℚ) < 3)]
    have c1 : ((f x y).1 : ℚ) ≤ 255 := by exact_mod_cast h1
    have c2 : ((f x y).2.1 : ℚ) ≤ 255 := by exact_mod_cast h2
    have c3 : ((f x y).2.2 : ℚ) ≤ 255 := by exact_mod_cast h3
    linarith

/-- Region brightness lies in [0, 255] whenever every channel is a byte. -/
theorem getRegionBrightness_bounds (d : MotionDetector) (f : Frame) (i : Nat)
    (hf : ∀ x y, (f x y).1 ≤ 255 ∧ (f x y).2.1 ≤ 255 ∧ (f x y).2.2 ≤ 255) :
    0 ≤ d.getRegionBrightness f i ∧ d.getRegionBrightness f i ≤ 255 := by
  unfold MotionDetector.getRegionBrightness
  simp only [listRangeMapSum]
  by_cases hpos : 0 < d.height / d.rows * (d.width / d.cols)
  · rw [if_pos hpos]
    set ch := d.height / d.rows
    set cw := d.width / d.cols
    have hb : ∀ x y : Nat, 0 ≤ pixelBrightness f x y ∧ pixelBrightness f x y ≤ 255 :=
      fun x y => pixelBrightness_bounds f x y (hf x y).1 (hf x y).2.1 (hf x y).2.2
    have hinner : ∀ dy : Nat,
        (0 ≤ ∑ dx in Finset.range cw, pixelBrightness f
            ((i % d.cols) * cw + dx) ((i / d.cols) * ch + dy)) ∧
        (∑ dx in Finset.range cw, pixelBrightness f
            ((i % d.cols) * cw + dx) ((i / d.cols) * ch + dy)) ≤ cw * 255 := by
      intro dy
      constructor
      · exact Finset.sum_nonneg (fun dx _ => (hb _ _).1)
      · calc (∑ dx in Finset.range cw, pixelBrightness f
              ((i % d.cols) * cw + dx) ((i / d.cols) * ch + dy))
            ≤ (Finset.range cw).card • (255 : ℚ) :=
              Finset.sum_le_card_nsmul _ _ _ (fun dx _ => (hb _ _).2)
          _ = cw * 255 := by rw [Finset.card_range, nsmul_eq_mul]
    have houter1 : (0:ℚ) ≤ ∑ dy in Finset.range ch, ∑ dx in Finset.range cw,
        pixelBrightness f ((i % d.cols) * cw + dx) ((i / d.cols) * ch + dy) :=
      Finset.sum_nonneg (fun dy _ => (hinner dy).1)
    have houter2 : (∑ dy in Finset.range ch, ∑ dx in Finset.range cw,
        pixelBrightness f ((i % d.cols) * cw + dx) ((i / d.cols) * ch + dy))
          ≤ ch * (cw * 255) := by
      calc (∑ dy in Finset.range ch, ∑ dx in Finset.range cw,
            pixelBrightness f ((i % d.cols) * cw + dx) ((i / d.cols) * ch + dy))
          ≤ (Finset.range ch).card • ((cw : ℚ) * 255) :=
            Finset.sum_le_card_nsmul _ _ _ (fun dy _ => (hinner dy).2)
        _ = ch * (cw * 255) := by rw [Finset.card_range, nsmul_eq_mul]
    have hcast : (0:ℚ) < ((ch * cw : Nat) : ℚ) := by exact_mod_cast hpos
    constructor
    · exact div_nonneg houter1 (le_of_lt hcast)
    · rw [div_le_iff₀ hcast]
      push_cast
      push_cast at houter2
      linarith
  · rw [if_neg hpos]
    norm_num

/-- Any pixel left of column 63 and above row 48 lies in exactly one default
grid cell. -/
theorem default_cells_cover (x y : Nat) (hx : x < 63) (hy : y < 48) :
    ∃! j, j < 9 ∧ defaultDetector.inCellRegion j x y := by
  refine ⟨(y / 16) * 3 + x / 21, ⟨by omega, ?_⟩, ?_⟩
  · simp only [MotionDetector.inCellRegion, defaultDetector]
    omega
  · rintro k ⟨hk, hreg⟩
    simp only [MotionDetector.inCellRegion, defaultDetector] at hreg
    omega

/-- The default grid's cells never reach pixel column 63. -/
theorem default_uncovered_column (j y : Nat) :
    ¬ defaultDetector.inCellRegion j 63 y := by
  simp only [MotionDetector.inCellRegion, defaultDetector]
  omega

/-- On a frame whose pixels all share one brightness value, every cell's
region brightness is that value. -/
theorem getRegionBrightness_constPixel (d : MotionDetector) (f : Frame)
    (b : ℚ) (i : Nat) (hpb : ∀ x y : Nat, pixelBrightness f x y = b)
    (hw : 0 < d.width / d.cols) (hh : 0 < d.height / d.rows) :
    d.getRegionBrightness f i = b := by
  unfold MotionDetector.getRegionBrightness
  simp only [hpb, listRangeMapSum, Finset.sum_const, Finset.card_range, nsmul_eq_mul]
  rw [if_pos (Nat.mul_pos hh hw)]
  have h3 : ((d.height / d.rows * (d.width / d.cols) : Nat) : ℚ) ≠ 0 := by
    exact_mod_cast Nat.pos_iff_ne_zero.mp (Nat.mul_pos hh hw)
  push_cast at h3 ⊢
  field_simp
  ring

/- ------------------------------------------------------------------ -/
/- Claim theorems                                                      -/
/- ------------------------------------------------------------------ -/

/-- C1 (amended): on a successful pass, cell `j` is appended to the result if
and only if its brightness delta is strictly greater than the threshold AND
the current time is strictly greater than `cooldownUntil[j]` (the code tests
`now > cooldowns[i]`, not `now ≥ cooldowns[i]`); and whenever the cell
triggers, `cooldownUntil[j]` is set to `now + cooldownMs`. -/
theorem C1_trigger_iff (d : MotionDetector) (f : Frame) (now : ℤ) (j : Nat)
    (hj : j < d.cellCount) (hc : j < d.cooldowns.length) :
    (j ∈ (d.detect (.ok f) now).1 ↔
      d.threshold < |d.getRegionBrightness f j - d.previousBrightness.getD j 0| ∧
      d.cooldowns.getD j 0 < now) ∧
    (j ∈ (d.detect (.ok f) now).1 →
      ((d.detect (.ok f) now).2).cooldowns.getD j 0 = now + d.cooldownMs) := by
  constructor
  · rw [detect_mem_iff]
    unfold trigCond
    exact ⟨fun h => h.2, fun h => ⟨hj, h⟩⟩
  · intro hmem
    exact detect_cooldown_of_trigger d f now j hj hc
      ((detect_mem_iff d f now j).mp hmem).2

/-- C1 witness: `C1_trigger_iff` at a concrete detector, frame and time. -/
theorem C1_trigger_iff_witness :
    0 ∈ (tinyDetector.detect (.ok (constFrame 90)) 1).1 := by
  refine ((C1_trigger_iff tinyDetector (constFrame 90) 1 0 (by decide)
    (by decide)).1).mpr ⟨?_, ?_⟩
  · rw [getRegionBrightness_constFrame tinyDetector 90 0 (by decide) (by decide),
      show tinyDetector.previousBrightness.getD 0 0 = 0 from rfl,
      show tinyDetector.threshold = 20 from rfl]
    norm_num
  · rw [show tinyDetector.cooldowns.getD 0 0 = 0 from rfl]
    norm_num

/-- C1 counterexample: at `now` exactly equal to the stored cooldown deadline
the claim (which reads `now ≥ cooldownUntil`) predicts a trigger, but the code
(`now > cooldowns[i]`) does not trigger: cell 0 has deadline 5, delta 90 > 20,
yet the pass at time 5 omits it. -/
theorem C1_counterexample :
    cooldownDetector.threshold <
      |cooldownDetector.getRegionBrightness (constFrame 90) 0 -
        cooldownDetector.previousBrightness.getD 0 0| ∧
    (5 : ℤ) ≥ cooldownDetector.cooldowns.getD 0 0 ∧
    0 ∉ (cooldownDetector.detect (.ok (constFrame 90)) 5).1 := by
  refine ⟨?_, ?_, ?_⟩
  · rw [getRegionBrightness_constFrame cooldownDetector 90 0 (by decide) (by decide),
      show cooldownDetector.previousBrightness.getD 0 0 = 0 from rfl,
      show cooldownDetector.threshold = 20 from rfl]
    norm_num
  · rw [show cooldownDetector.cooldowns.getD 0 0 = 5 from rfl]
  · intro hmem
    have h := ((detect_mem_iff cooldownDetector (constFrame 90) 5 0).mp hmem).2.2
    rw [show cooldownDetector.cooldowns.getD 0 0 = 5 from rfl] at h
    exact lt_irrefl _ h

/-- C2: the detector has no crop mode.  `detect()` samples the full source
frame — for a 1280×720 (16:9) camera the sampled rectangle is the whole frame,
anisotropically stretched into the 4:3 target — whereas the documented
"cover"-fit behaviour would center-crop to (160, 0, 960, 720) first. -/
theorem C2_no_crop_mode :
    sampledSourceRect 1280 720 = (0, 0, 1280, 720) ∧
    coverCropRect defaultDetector 1280 720 = (160, 0, 960, 720) ∧
    sampledSourceRect 1280 720 ≠ coverCropRect defaultDetector 1280 720 ∧
    1280 * defaultDetector.height ≠ 720 * defaultDetector.width := by
  refine ⟨rfl, by decide, by decide, by decide⟩

/-- C3: once a cell triggers at time T, no sequence of later passes at times
strictly below T + cooldownMs can trigger it again, whatever the frames show. -/
theorem C3_cooldown_enforced (d : MotionDetector) (fr : FrameRead) (T : ℤ)
    (i : Nat) (hlen : d.cooldowns.length = d.cellCount)
    (htrig : i ∈ (d.detect fr T).1)
    (steps : List (FrameRead × ℤ))
    (htimes : ∀ p ∈ steps, p.2 < T + d.cooldownMs) :
    ∀ out ∈ (runDetect ((d.detect fr T).2) steps).1, i ∉ out := by
  match fr with
  | .noSource => simp [MotionDetector.detect] at htrig
  | .notReady => simp [MotionDetector.detect] at htrig
  | .readError => simp [MotionDetector.detect] at htrig
  | .ok f =>
    rcases (detect_mem_iff d f T i).mp htrig with ⟨hi, ht⟩
    have hcd : ((d.detect (.ok f) T).2).cooldowns.getD i 0 = T + d.cooldownMs :=
      detect_cooldown_of_trigger d f T i hi (hlen ▸ hi) ht
    exact (runDetect_no_retrigger i steps ((d.detect (.ok f) T).2) (T + d.cooldownMs)
      hcd (fun p hp => le_of_lt (htimes p hp))).1

/-- C3 witness: cell 0 triggers at time 1 with cooldown 250; a later pass at
time 100 with a large brightness delta does not re-trigger it. -/
theorem C3_cooldown_enforced_witness :
    0 ∉ (((tinyDetector.detect (.ok (constFrame 90)) 1).2).detect
      (.ok (constFrame 0)) 100).1 := by
  have htrig : 0 ∈ (tinyDetector.detect (.ok (constFrame 90)) 1).1 := by
    refine (detect_mem_iff tinyDetector (constFrame 90) 1 0).mpr ⟨by decide, ?_, ?_⟩
    · rw [getRegionBrightness_constFrame tinyDetector 90 0 (by decide) (by decide),
        show tinyDetector.previousBrightness.getD 0 0 = 0 from rfl,
        show tinyDetector.threshold = 20 from rfl]
      norm_num
    · rw [show tinyDetector.cooldowns.getD 0 0 = 0 from rfl]
      norm_num
  have h := C3_cooldown_enforced tinyDetector (.ok (constFrame 90)) 1 0 (by decide)
    htrig [((FrameRead.ok (constFrame 0)), 100)]
    (by
      intro p hp
      rw [List.mem_singleton.mp hp, show tinyDetector.cooldownMs = 250 from rfl]
      norm_num)
  exact h _ (List.mem_singleton.mpr rfl)

/-- C4 (amended): per-cell brightness is exactly the average of (R+G+B)/3 over
the cell's pixels and lies in [0,255]; but the nine equal 21×16 cells tile
only the first 63 pixel columns of the 64×48 buffer: every pixel with x < 63
lies in exactly one cell, while column x = 63 lies in none. -/
theorem C4_brightness_average (f : Frame) (i : Nat) (hi : i < 9)
    (hf : ∀ x y : Nat, (f x y).1 ≤ 255 ∧ (f x y).2.1 ≤ 255 ∧ (f x y).2.2 ≤ 255) :
    defaultDetector.getRegionBrightness f i = cellAverage defaultDetector f i ∧
    (cellPixelSet defaultDetector i).card = 336 ∧
    0 ≤ defaultDetector.getRegionBrightness f i ∧
    defaultDetector.getRegionBrightness f i ≤ 255 ∧
    (∀ x, x < 63 → ∀ y, y < 48 →
      ∃! j, j < 9 ∧ defaultDetector.inCellRegion j x y) ∧
    (∀ j y : Nat, ¬ defaultDetector.inCellRegion j 63 y) := by
  have hi' : i < defaultDetector.cellCount := hi
  refine ⟨getRegionBrightness_eq_cellAverage defaultDetector f i (by decide) hi',
    ?_, (getRegionBrightness_bounds defaultDetector f i hf).1,
    (getRegionBrightness_bounds defaultDetector f i hf).2,
    fun x hx y hy => default_cells_cover x y hx hy,
    fun j y => default_uncovered_column j y⟩
  rw [card_cellPixelSet defaultDetector i (by decide) hi']
  decide

/-- C4 witness: `C4_brightness_average` at the all-black frame and cell 4. -/
theorem C4_brightness_average_witness :
    defaultDetector.getRegionBrightness (constFrame 0) 4
      = cellAverage defaultDetector (constFrame 0) 4 ∧
    (cellPixelSet defaultDetector 4).card = 336 := by
  have h := C4_brightness_average (constFrame 0) 4 (by decide)
    (fun x y => by exact ⟨Nat.zero_le _, Nat.zero_le _, Nat.zero_le _⟩)
  exact ⟨h.1, h.2.1⟩

/-- C4 counterexample: pixel (63, 0) lies inside the 64×48 buffer but belongs
to no cell, so the cells do not partition the buffer. -/
theorem C4_counterexample :
    63 < defaultDetector.width ∧ 0 < defaultDetector.height ∧
    coveringCells defaultDetector 63 0 = [] := by
  refine ⟨by decide, by decide, by decide⟩

/-- C5: a successful pass overwrites `previousBrightness[j]` with the freshly
computed brightness for every cell, triggered or not, cooling down or not. -/
theorem C5_prev_always_updated (d : MotionDetector) (f : Frame) (now : ℤ)
    (j : Nat) (hj : j < d.cellCount) (hlen : j < d.previousBrightness.length) :
    ((d.detect (.ok f) now).2).previousBrightness.getD j 0
      = d.getRegionBrightness f j :=
  detect_prev_update d f now j hj hlen

/-- C5 witness: at time 0 cell 0 cannot trigger (`0 > 0` is false), yet its
`previousBrightness` still becomes 90. -/
theorem C5_prev_always_updated_witness :
    ((tinyDetector.detect (.ok (constFrame 90)) 0).2).previousBrightness.getD 0 0
      = 90 ∧ 0 ∉ (tinyDetector.detect (.ok (constFrame 90)) 0).1 := by
  constructor
  · rw [C5_prev_always_updated tinyDetector (constFrame 90) 0 0 (by decide) (by decide),
      getRegionBrightness_constFrame tinyDetector 90 0 (by decide) (by decide)]
    norm_num
  · intro hmem
    have h := ((detect_mem_iff tinyDetector (constFrame 90) 0 0).mp hmem).2.2
    rw [show tinyDetector.cooldowns.getD 0 0 = 0 from rfl] at h
    exact lt_irrefl _ h

/-- C6: with no source bound, an undecodable frame, or a failing frame read,
`detect()` returns the empty result and the detector state — both per-cell
arrays included — is returned exactly as it was. -/
theorem C6_failure_paths (d : MotionDetector) (now : ℤ) :
    d.detect .noSource now = ([], d) ∧
    d.detect .notReady now = ([], d) ∧
    d.detect .readError now = ([], d) :=
  ⟨rfl, rfl, rfl⟩

/-- C7: `play` is total; with no audio context (before `init()` or after
`dispose()`) it is a silent no-op for every string, and an unknown voice name
only produces the logged-warning branch, never a synthesis branch. -/
theorem C7_play_safe (s : SynthDrums) (name : String) :
    (SynthDrums.mk none).play name = .silent ∧
    s.dispose.play name = .silent ∧
    (name ∉ voiceNames →
      ∀ ctx : AudioCtxState, (SynthDrums.mk (some ctx)).play name = .warned name) ∧
    (name ∉ voiceNames → ∀ v : Voice, s.play name ≠ .synthesized v) := by
  have hwarn : ∀ ctx : AudioCtxState, name ∉ voiceNames →
      (SynthDrums.mk (some ctx)).play name = .warned name := by
    intro ctx hname
    simp only [voiceNames, List.mem_cons, List.not_mem_nil, or_false, not_or] at hname
    obtain ⟨h1, h2, h3, h4, h5, h6, h7, h8, h9⟩ := hname
    unfold SynthDrums.play
    rw [if_neg h1, if_neg h2, if_neg h3, if_neg h4, if_neg h5, if_neg h6,
      if_neg h7, if_neg h8, if_neg h9]
  refine ⟨rfl, rfl, fun hname ctx => hwarn ctx hname, ?_⟩
  intro hname v
  obtain ⟨ctx⟩ := s
  match ctx with
  | none => intro hbad; cases hbad
  | some c =>
    rw [hwarn c hname]
    intro hbad
    cases hbad

/-- C7 witness: `C7_play_safe` at the unknown name "boom". -/
theorem C7_play_safe_witness :
    (SynthDrums.mk (some .running)).play "boom" = .warned "boom" ∧
    (SynthDrums.mk (some .running)).dispose.play "boom" = .silent := by
  refine ⟨(C7_play_safe (SynthDrums.mk (some .running)) "boom").2.2.1 (by decide) _,
    (C7_play_safe (SynthDrums.mk (some .running)) "boom").2.1⟩

/-- C8: both setters clamp: `setThreshold` to [1,100], `setCooldown` to
[50,1000]; identity inside the range, and the spec's four corner cases. -/
theorem C8_setter_clamps (d : MotionDetector) (v w : ℤ) :
    (1 ≤ (d.setThreshold v).threshold ∧ (d.setThreshold v).threshold ≤ 100) ∧
    ((1:ℤ) ≤ v → v ≤ 100 → (d.setThreshold v).threshold = (v : ℚ)) ∧
    (v < 1 → (d.setThreshold v).threshold = 1) ∧
    (100 < v → (d.setThreshold v).threshold = 100) ∧
    (50 ≤ (d.setCooldown w).cooldownMs ∧ (d.setCooldown w).cooldownMs ≤ 1000) ∧
    ((50:ℤ) ≤ w → w ≤ 1000 → (d.setCooldown w).cooldownMs = w) ∧
    (w < 50 → (d.setCooldown w).cooldownMs = 50) ∧
    (1000 < w → (d.setCooldown w).cooldownMs = 1000) ∧
    (d.setThreshold 0).threshold = 1 ∧
    (d.setThreshold 1000).threshold = 100 ∧
    (d.setCooldown 10).cooldownMs = 50 ∧
    (d.setCooldown 5000).cooldownMs = 1000 := by
  unfold MotionDetector.setThreshold MotionDetector.setCooldown
  dsimp only
  refine ⟨⟨le_max_left _ _, max_le (by norm_num) (min_le_left _ _)⟩,
    ?_, ?_, ?_,
    ⟨le_max_left _ _, max_le (by norm_num) (min_le_left _ _)⟩,
    ?_, ?_, ?_, by norm_num, by norm_num, by norm_num, by norm_num⟩
  · intro h1 h2
    have c1 : (1 : ℚ) ≤ (v : ℚ) := by exact_mod_cast h1
    have c2 : (v : ℚ) ≤ 100 := by exact_mod_cast h2
    rw [min_eq_right c2, max_eq_right c1]
  · intro h
    have c : (v : ℚ) < 1 := by exact_mod_cast h
    rw [min_eq_right (by linarith : (v:ℚ) ≤ 100), max_eq_left (by linarith)]
  · intro h
    have c : (100 : ℚ) < (v : ℚ) := by exact_mod_cast h
    rw [min_eq_left (by linarith), max_eq_right (by norm_num)]
  · intro h1 h2
    rw [min_eq_right h2, max_eq_right h1]
  · intro h
    rw [min_eq_right (by omega : w ≤ 1000), max_eq_left (by omega)]
  · intro h
    rw [min_eq_left (by omega), max_eq_right (by norm_num)]

/-- C8 witness: `C8_setter_clamps` with in-range inputs 7 and 300. -/
theorem C8_setter_clamps_witness :
    (defaultDetector.setThreshold 7).threshold = 7 ∧
    (defaultDetector.setCooldown 300).cooldownMs = 300 ∧
    (defaultDetector.setThreshold 0).threshold = 1 ∧
    (defaultDetector.setThreshold 1000).threshold = 100 ∧
    (defaultDetector.setCooldown 10).cooldownMs = 50 ∧
    (defaultDetector.setCooldown 5000).cooldownMs = 1000 := by
  have h := C8_setter_clamps defaultDetector 7 300
  have h1 := h.2.1 (by norm_num) (by norm_num)
  rw [show (((7:ℤ)):ℚ) = (7:ℚ) by norm_num] at h1
  exact ⟨h1, h.2.2.2.2.2.1 (by norm_num) (by norm_num),
    h.2.2.2.2.2.2.2.2.1, h.2.2.2.2.2.2.2.2.2.1,
    h.2.2.2.2.2.2.2.2.2.2.1, h.2.2.2.2.2.2.2.2.2.2.2⟩

/-- C9 (amended): two runs from the same initial state and configuration whose
frame sequences have identical per-cell brightness grids AND whose `detect()`
calls occur at identical timestamps produce identical trigger sequences (the
code also reads `Date.now()`, so runs at different times may diverge). -/
theorem C9_deterministic (d : MotionDetector) (l1 l2 : List (Frame × ℤ))
    (hrel : List.Forall₂ (fun p q => p.2 = q.2 ∧ ∀ i < d.cellCount,
      d.getRegionBrightness p.1 i = d.getRegionBrightness q.1 i) l1 l2) :
    runDetect d (okSteps l1) = runDetect d (okSteps l2) :=
  runDetect_congr d l1 l2 hrel d rfl rfl

/-- C9 witness: `C9_deterministic` on two frames with different pixel data but
the same brightness grid, at the same call time. -/
theorem C9_deterministic_witness :
    runDetect tinyDetector (okSteps [(constFrame 90, 7)])
      = runDetect tinyDetector (okSteps [(altFrame, 7)]) := by
  refine C9_deterministic tinyDetector _ _ (List.forall₂_cons.mpr ⟨⟨rfl, ?_⟩, List.Forall₂.nil⟩)
  intro i _
  rw [getRegionBrightness_constFrame tinyDetector 90 i (by decide) (by decide),
    getRegionBrightness_constPixel tinyDetector altFrame 90 i
      (fun x y => by unfold pixelBrightness altFrame; norm_num) (by decide) (by decide)]
  norm_num

/-- C9 counterexample: identical initial state, configuration and frames, but
call times (1, 10) versus (1, 300): in the first run cell 0 is still cooling
down at the second call, in the second run it has cooled down and re-triggers,
so the two trigger sequences differ. -/
theorem C9_counterexample :
    (runDetect tinyDetector (okSteps [(constFrame 90, 1), (constFrame 0, 10)])).1
      ≠ (runDetect tinyDetector (okSteps [(constFrame 90, 1), (constFrame 0, 300)])).1 := by
  have htrig : trigCond tinyDetector (constFrame 90) 1 0 := by
    constructor
    · rw [getRegionBrightness_constFrame tinyDetector 90 0 (by decide) (by decide),
        show tinyDetector.previousBrightness.getD 0 0 = 0 from rfl,
        show tinyDetector.threshold = 20 from rfl]
      norm_num
    · rw [show tinyDetector.cooldowns.getD 0 0 = 0 from rfl]
      norm_num
  have hcd : ((tinyDetector.detect (.ok (constFrame 90)) 1).2).cooldowns.getD 0 0
      = 1 + tinyDetector.cooldownMs :=
    detect_cooldown_of_trigger tinyDetector (constFrame 90) 1 0 (by decide)
      (by decide) htrig
  have hprev : ((tinyDetector.detect (.ok (constFrame 90)) 1).2).previousBrightness.getD 0 0
      = 90 := by
    rw [detect_prev_update tinyDetector (constFrame 90) 1 0 (by decide) (by decide),
      getRegionBrightness_constFrame tinyDetector 90 0 (by decide) (by decide)]
    norm_num
  have hA : 0 ∉ (((tinyDetector.detect (.ok (constFrame 90)) 1).2).detect
      (.ok (constFrame 0)) 10).1 := by
    intro hmem
    have h := ((detect_mem_iff _ (constFrame 0) 10 0).mp hmem).2.2
    rw [hcd, show tinyDetector.cooldownMs = 250 from rfl] at h
    norm_num at h
  have hB : 0 ∈ (((tinyDetector.detect (.ok (constFrame 90)) 1).2).detect
      (.ok (constFrame 0)) 300).1 := by
    refine (detect_mem_iff _ (constFrame 0) 300 0).mpr
      ⟨by rw [detect_cellCount]; decide, ?_, ?_⟩
    · have hg : ((tinyDetector.detect (.ok (constFrame 90)) 1).2).getRegionBrightness
          (constFrame 0) 0 = 0 := by
        rw [detect_grb_eq]
        exact getRegionBrightness_constFrame tinyDetector 0 0 (by decide) (by decide)
      rw [hg, hprev, (detect_preserves tinyDetector (.ok (constFrame 90)) 1).2.2.2.2.1,
        show tinyDetector.threshold = 20 from rfl]
      norm_num
    · rw [hcd, show tinyDetector.cooldownMs = 250 from rfl]
      norm_num
  intro h
  have h2 := congrArg (fun l => (0 : Nat) ∈ l.getD 1 []) h
  simp only [eq_iff_iff] at h2
  exact hA (h2.mpr hB)

/-- C10: the result of every `detect()` call is strictly ascending (hence
duplicate-free) and every element is an in-range cell index (0..8 for the
3×3 grid, where `cellCount = 9`). -/
theorem C10_result_ascending (d : MotionDetector) (fr : FrameRead) (now : ℤ) :
    ((d.detect fr now).1).Sorted (· < ·) ∧
    ((d.detect fr now).1).Nodup ∧
    ∀ j ∈ (d.detect fr now).1, j < d.cellCount := by
  have hmain : ((d.detect fr now).1).Sorted (· < ·) ∧
      ∀ j ∈ (d.detect fr now).1, j < d.cellCount := by
    match fr with
    | .noSource => exact ⟨List.sorted_nil, by simp [MotionDetector.detect]⟩
    | .notReady => exact ⟨List.sorted_nil, by simp [MotionDetector.detect]⟩
    | .readError => exact ⟨List.sorted_nil, by simp [MotionDetector.detect]⟩
    | .ok f =>
      have h := foldl_detectStep_sorted f now (List.range d.cellCount) ([], d)
        (List.sorted_lt_range _) List.sorted_nil (by simp)
      refine ⟨h.1, fun j hj => ?_⟩
      rcases h.2 j hj with h1 | h1
      · simp at h1
      · exact List.mem_range.mp h1
  exact ⟨hmain.1, hmain.1.nodup, hmain.2⟩
